import Mathlib

/-! cuIBM-FSI: generation and refresh of the transfer operators QT and E

A shallow embedding of `src/solvers/NavierStokes/TCFSI/generateQT.inl`
(the four template specialisations `TCFSISolver<host_memory>::updateQT`,
`TCFSISolver<device_memory>::updateQT`, `TCFSISolver<host_memory>::generateQT`,
`TCFSISolver<device_memory>::generateQT`) together with the part of
`src/bodies.h` they read.

Conventions of the embedding.

* `real` is a type parameter `R`: the four routines never compute with a
  `real`, they only hand arrays of them on.
* `int` is the 32-bit two's-complement integer of the platforms the code is
  built for: a value is an `Int`, and every operation of the shape
  computation of generateQT is followed by the reduction `wrapInt32` to the
  range of `int`.  `ShapeFits` is the range on which no operation overflows,
  and `QTShape32_eq` shows that the machine evaluation is the exact one
  there.  The one other `int` operation, the `+1` of the block count, cannot
  overflow.  A negative entry count, which the library would take for a huge
  unsigned size, is kept as the declared count with empty arrays.
* `cusp::array1d` is a `List`; a raw pointer to the first element of an
  array stands for the whole array.
* The object state of `TCFSISolver` is passed explicitly; the `logger`
  calls have no effect on it and are left out.
* The kernels declared in `solvers/NavierStokes/kernels/generateQT.h` and the
  library routine `cusp::transpose` are called by generateQT.inl but their
  text is not in the repository files embedded here; they are parameters
  (`Routines`).  Where a property is decided by what the stencil kernels do,
  they are modelled from the specification (`Stencil`).
-/

namespace CuIBM

/-! ## Data model -/

/-- Coordinate-format sparse matrix, `cusp::coo_matrix<int, real, memoryType>`:
the declared shape and the three entry arrays. -/
structure coo (R : Type) where
  num_rows : Int
  num_cols : Int
  num_entries : Int
  row_indices : List Int
  column_indices : List Int
  values : List R

/-- The three entry arrays of a matrix, as reached through the raw pointers
`Rows`, `Cols`, `Vals` that the solver hands to a kernel. -/
structure Buffers (R : Type) where
  rows : List Int
  cols : List Int
  vals : List R

/-- Raw pointers to the entry arrays of `A` (`thrust::raw_pointer_cast`). -/
def coo.buffers {R : Type} (A : coo R) : Buffers R :=
  { rows := A.row_indices, cols := A.column_indices, vals := A.values }

/-- The matrix `A` after a kernel has written through the raw pointers: the
entry arrays are replaced, the declared shape is out of the kernel's reach. -/
def coo.withBuffers {R : Type} (A : coo R) (b : Buffers R) : coo R :=
  { A with row_indices := b.rows, column_indices := b.cols, values := b.vals }

/-- Resizing of an array (`cusp::array1d::resize`): the first `n` elements
are kept, new elements are value-initialised. -/
def resizeArray {α : Type} (l : List α) (n : Nat) (d : α) : List α :=
  l.take n ++ List.replicate (n - l.length) d

/-- The call `A.resize(num_rows, num_cols, num_entries)` of a coordinate matrix. -/
def coo.resize {R : Type} [Zero R] (A : coo R) (r c n : Int) : coo R :=
  { num_rows := r, num_cols := c, num_entries := n,
    row_indices := resizeArray A.row_indices n.toNat 0,
    column_indices := resizeArray A.column_indices n.toNat 0,
    values := resizeArray A.values n.toNat 0 }

/-- The constructor call `cooH M(num_rows, num_cols, num_entries)`. -/
def coo.create {R : Type} [Zero R] (r c n : Int) : coo R :=
  { num_rows := r, num_cols := c, num_entries := n,
    row_indices := List.replicate n.toNat 0,
    column_indices := List.replicate n.toNat 0,
    values := List.replicate n.toNat 0 }

/-- The fields of `domain` read by generateQT.inl: the grid dimensions, the
host grid arrays `x`, `y`, `dx` and their device copies `xD`, `yD`, `dxD`. -/
structure domain (R : Type) where
  nx : Int
  ny : Int
  x : List R
  y : List R
  dx : List R
  xD : List R
  yD : List R
  dxD : List R

/-- The class `bodies` of bodies.h, field by field. -/
structure bodies (R : Type) where
  numBodies : Int := 0
  totalPoints : Int
  bodiesMove : Bool := false
  numPoints : List Int := []
  offsets : List Int := []
  I : List Int
  J : List Int
  startI : List Int := []
  startJ : List Int := []
  numCellsX : List Int := []
  numCellsY : List Int := []
  xmin : List R := []
  xmax : List R := []
  ymin : List R := []
  ymax : List R := []
  forceX : List R := []
  forceY : List R := []
  forceXold : List R := []
  forceYold : List R := []
  X : List R := []
  Y : List R := []
  ds : List R := []
  ones : List R := []
  x : List R
  y : List R
  uB : List R := []
  vB : List R := []
  xk : List R
  yk : List R
  xkp1 : List R
  ykp1 : List R
  fXk : List R := []
  fYk : List R := []
  fXkp1 : List R := []
  fYkp1 : List R := []
  uBk : List R := []
  vBk : List R := []
  uBkp1 : List R := []
  vBkp1 : List R := []
  converged : List Bool := []
  test : List R := []

/-- The members of `TCFSISolver` that generateQT.inl touches. -/
structure TCFSISolver (R : Type) where
  QT : coo R
  Q : coo R
  E : coo R
  ET : coo R
  B : bodies R
  domInfo : domain R

/-- The template parameter `memoryType`. -/
inductive memoryType where
  | host_memory
  | device_memory

/-- The error kinds named by the specification (its section 7).  No statement
of generateQT.inl raises any of them. -/
inductive SolverError where
  | ConfigurationError
  | IndexOutOfDomain
  | StaleStateError
  | StructuralMismatch

/-- The read-only part of the argument list shared by `kernels::updateQTHost`
and `kernels::updateQT`:
`(nx, ny, x, y, dx, B.totalPoints, xB, yB, I, J)`. -/
structure KernelArgs (R : Type) where
  nx : Int
  ny : Int
  x : List R
  y : List R
  dx : List R
  totalPoints : Int
  xB : List R
  yB : List R
  I : List Int
  J : List Int

/-- The routines generateQT.inl calls and whose text is not part of the
sources: the three kernels declared in
`solvers/NavierStokes/kernels/generateQT.h` and the library routine
`cusp::transpose`.  A kernel receives the entry arrays of QT (and of E) and
returns them as it leaves them; the device kernel also receives its launch
configuration `<<<dimGrid.x, dimBlock.x>>>`. -/
structure Routines (R : Type) where
  generateQT : Int → Int → Buffers R → Buffers R
  updateQTHost : KernelArgs R → Buffers R × Buffers R → Buffers R × Buffers R
  updateQT : Int → Int → KernelArgs R → Buffers R × Buffers R → Buffers R × Buffers R
  transpose : coo R → coo R

/-! ## generateQT.inl -/

/-- The macro `BLOCKSIZE`. -/
def BLOCKSIZE : Int := 256

/-- The conversion `int(q)` of a floating-point value: truncation toward zero. -/
def truncToInt (q : ℚ) : Int :=
  if 0 ≤ q then ⌊q⌋ else ⌈q⌉

/-- The first component of `dimGrid` in the device `updateQT`,
`int((B.totalPoints-0.5)/BLOCKSIZE)+1`.  The double-precision evaluation is
exact: an `int` converts to `double` without rounding, `0.5` and `256` are
powers of two, and the difference needs at most 33 significant bits; the
value is therefore the rational number computed here. -/
def numBlocks (totalPoints : Int) : Int :=
  truncToInt (((totalPoints : ℚ) - 1 / 2) / (BLOCKSIZE : ℚ)) + 1

/-- The largest value of an `int`. -/
def INT_MAX : Int := 2147483647

/-- Reduction of an integer to the range of a 32-bit two's-complement `int`:
the result of an `int` operation whose exact result is `z`. -/
def wrapInt32 (z : Int) : Int :=
  (z + 2147483648) % 4294967296 - 2147483648

/-- The local `int numU = (nx-1)*ny` of generateQT. -/
def numU (nx ny : Int) : Int := wrapInt32 (wrapInt32 (nx - 1) * ny)

/-- The local `int numUV = numU + nx*(ny-1)` of generateQT. -/
def numUV (nx ny : Int) : Int :=
  wrapInt32 (numU nx ny + wrapInt32 (nx * wrapInt32 (ny - 1)))

/-- The local `int numP = numU + ny` of generateQT. -/
def numP (nx ny : Int) : Int := wrapInt32 (numU nx ny + ny)

/-- The pointer selection of host `updateQT` (lines 31-53): grid arrays from
`domInfo->x`, `y`, `dx`; marker coordinates by `isSubStep`. -/
def kernelArgs_host {R : Type} (s : TCFSISolver R) (isSubStep : Bool) : KernelArgs R :=
  { nx := s.domInfo.nx, ny := s.domInfo.ny,
    x := s.domInfo.x, y := s.domInfo.y, dx := s.domInfo.dx,
    totalPoints := s.B.totalPoints,
    xB := if !isSubStep then s.B.x else s.B.xk,
    yB := if !isSubStep then s.B.y else s.B.yk,
    I := s.B.I, J := s.B.J }

/-- The pointer selection of device `updateQT` (lines 88-113): grid arrays
from `domInfo->xD`, `yD`, `dxD`; marker coordinates by `isSubStep`. -/
def kernelArgs_device {R : Type} (s : TCFSISolver R) (isSubStep : Bool) : KernelArgs R :=
  { nx := s.domInfo.nx, ny := s.domInfo.ny,
    x := s.domInfo.xD, y := s.domInfo.yD, dx := s.domInfo.dxD,
    totalPoints := s.B.totalPoints,
    xB := if !isSubStep then s.B.x else s.B.xk,
    yB := if !isSubStep then s.B.y else s.B.yk,
    I := s.B.I, J := s.B.J }

/-- Body of `TCFSISolver<host_memory>::updateQT(bool isSubStep)`: the kernel
`kernels::updateQTHost` writes through the raw pointers of QT and E, then
`cusp::transpose(QT, Q)` and `cusp::transpose(E, ET)`.  The function has no
failure path. -/
def updateQT_host {R : Type} (K : Routines R) (s : TCFSISolver R) (isSubStep : Bool) :
    Except SolverError (TCFSISolver R) :=
  let out := K.updateQTHost (kernelArgs_host s isSubStep) (s.QT.buffers, s.E.buffers)
  let QT := s.QT.withBuffers out.1
  let E := s.E.withBuffers out.2
  Except.ok { s with QT := QT, E := E, Q := K.transpose QT, ET := K.transpose E }

/-- Body of `TCFSISolver<device_memory>::updateQT(bool isSubStep)`: the kernel
`kernels::updateQT` is launched on `numBlocks` blocks of `BLOCKSIZE` threads,
then the two transpositions. -/
def updateQT_device {R : Type} (K : Routines R) (s : TCFSISolver R) (isSubStep : Bool) :
    Except SolverError (TCFSISolver R) :=
  let out := K.updateQT (numBlocks s.B.totalPoints) BLOCKSIZE
    (kernelArgs_device s isSubStep) (s.QT.buffers, s.E.buffers)
  let QT := s.QT.withBuffers out.1
  let E := s.E.withBuffers out.2
  Except.ok { s with QT := QT, E := E, Q := K.transpose QT, ET := K.transpose E }

/-- Body of `TCFSISolver<host_memory>::generateQT()`: the shape in `int`
arithmetic, `QT.resize(numP + 2*B.totalPoints, numUV,
4*numP-2*(nx+ny) + 24*B.totalPoints)`, the grid-gradient kernel
`kernels::generateQT`, then `updateQT(false)`. -/
def generateQT_host {R : Type} [Zero R] (K : Routines R) (s : TCFSISolver R) :
    Except SolverError (TCFSISolver R) :=
  let nx := s.domInfo.nx
  let ny := s.domInfo.ny
  let QT := s.QT.resize (wrapInt32 (numP nx ny + wrapInt32 (2 * s.B.totalPoints)))
    (numUV nx ny)
    (wrapInt32 (wrapInt32 (wrapInt32 (4 * numP nx ny) - wrapInt32 (2 * wrapInt32 (nx + ny)))
      + wrapInt32 (24 * s.B.totalPoints)))
  let QT := QT.withBuffers (K.generateQT nx ny QT.buffers)
  let isSubStep := false
  updateQT_host K { s with QT := QT } isSubStep

/-- Body of `TCFSISolver<device_memory>::generateQT()`: the shape in `int`
arithmetic, a fresh host matrix `QTHost` of that shape, the grid-gradient
kernel on it, the copy `QT = QTHost`, then `updateQT(false)`. -/
def generateQT_device {R : Type} [Zero R] (K : Routines R) (s : TCFSISolver R) :
    Except SolverError (TCFSISolver R) :=
  let nx := s.domInfo.nx
  let ny := s.domInfo.ny
  let QTHost : coo R := coo.create
    (wrapInt32 (numP nx ny + wrapInt32 (2 * s.B.totalPoints)))
    (numUV nx ny)
    (wrapInt32 (wrapInt32 (wrapInt32 (4 * numP nx ny) - wrapInt32 (2 * wrapInt32 (nx + ny)))
      + wrapInt32 (24 * s.B.totalPoints)))
  let QTHost := QTHost.withBuffers (K.generateQT nx ny QTHost.buffers)
  let isSubStep := false
  updateQT_device K { s with QT := QTHost } isSubStep

/-- The specialisation of `updateQT` selected by the template parameter. -/
def updateQT {R : Type} (mem : memoryType) (K : Routines R) (s : TCFSISolver R)
    (isSubStep : Bool) : Except SolverError (TCFSISolver R) :=
  match mem with
  | .host_memory => updateQT_host K s isSubStep
  | .device_memory => updateQT_device K s isSubStep

/-- The specialisation of `generateQT` selected by the template parameter. -/
def generateQT {R : Type} [Zero R] (mem : memoryType) (K : Routines R) (s : TCFSISolver R) :
    Except SolverError (TCFSISolver R) :=
  match mem with
  | .host_memory => generateQT_host K s
  | .device_memory => generateQT_device K s

/-- A caller's sequence of updates after the bodies have moved: before each
call the marker set is the one the caller supplies (the outer time loop moves
the bodies between calls), then `updateQT` runs with the given flag. -/
def updateQT_calls {R : Type} (mem : memoryType) (K : Routines R) :
    List (bodies R × Bool) → TCFSISolver R → Except SolverError (TCFSISolver R)
  | [], s => Except.ok s
  | (B, isSubStep) :: rest, s =>
    match updateQT mem K { s with B := B } isSubStep with
    | Except.ok s' => updateQT_calls mem K rest s'
    | Except.error e => Except.error e

/-- The declared shape of a matrix: rows, columns, nonzero count. -/
def coo.shape {R : Type} (A : coo R) : Int × Int × Int :=
  (A.num_rows, A.num_cols, A.num_entries)

/-- The three arguments generateQT passes to `resize` (host) and to the
constructor of `QTHost` (device), lines 151 and 181: the declared rows,
columns and nonzero count, as the `int` arithmetic of the source gives them. -/
def QTShape32 (nx ny totalPoints : Int) : Int × Int × Int :=
  (wrapInt32 (numP nx ny + wrapInt32 (2 * totalPoints)), numUV nx ny,
    wrapInt32 (wrapInt32 (wrapInt32 (4 * numP nx ny) - wrapInt32 (2 * wrapInt32 (nx + ny)))
      + wrapInt32 (24 * totalPoints)))

/-- The range on which no operation of generateQT's shape arithmetic
overflows: a grid of at least one cell each way, a non-negative marker count,
and the two largest intermediate results, `4*numP` and the nonzero count
`4*numP - 2*(nx+ny) + 24*totalPoints`, at most `INT_MAX`. -/
def ShapeFits (nx ny totalPoints : Int) : Prop :=
  1 ≤ nx ∧ 1 ≤ ny ∧ 0 ≤ totalPoints ∧ 4 * (nx * ny) ≤ INT_MAX ∧
    4 * (nx * ny) - 2 * (nx + ny) + 24 * totalPoints ≤ INT_MAX

/-! ## The per-marker stencil kernels -/

/-- One write of a kernel through the pointers `Rows`, `Cols`, `Vals`: the row
index, column index and value of the entry at `slot`.  (A slot past the end of
the arrays leaves them as they are; the source has no defined behaviour
there.) -/
def Buffers.write {R : Type} (b : Buffers R) (slot : Nat) (e : Int × Int × R) : Buffers R :=
  { rows := b.rows.set slot e.1, cols := b.cols.set slot e.2.1, vals := b.vals.set slot e.2.2 }

/-- A sequence of writes, in order. -/
def Buffers.writeAll {R : Type} (b : Buffers R) (ws : List (Nat × (Int × Int × R))) :
    Buffers R :=
  ws.foldl (fun b w => b.write w.1 w.2) b

/-- Modelled from the spec: the per-marker stencil computed by
`kernels::updateQTHost` and `kernels::updateQT` (declared in
`solvers/NavierStokes/kernels/generateQT.h`, whose text is missing).  Spec 4.2:
every marker contributes a fixed-size local stencil (`supportQT`, `supportE`
neighbours); for every marker the kernel evaluates the interpolation weights
from the marker's cell indices, the selected coordinate snapshot and the grid
(`entryQT`, `entryE`: row, column, value, functions of the kernel arguments,
the marker's linear index and the neighbour offset) and writes them into
pre-assigned slots, each a deterministic function of the marker's linear index
and the neighbour offset (`slotQT`, `slotE`). -/
structure Stencil (R : Type) where
  supportQT : Nat
  supportE : Nat
  slotQT : KernelArgs R → Nat → Nat → Nat
  entryQT : KernelArgs R → Nat → Nat → Int × Int × R
  slotE : KernelArgs R → Nat → Nat → Nat
  entryE : KernelArgs R → Nat → Nat → Int × Int × R

/-- Modelled from the spec: the writes marker `k` contributes to QT, one per
neighbour offset. -/
def Stencil.writesQT {R : Type} (S : Stencil R) (a : KernelArgs R) (k : Nat) :
    List (Nat × (Int × Int × R)) :=
  (List.range S.supportQT).map (fun n => (S.slotQT a k n, S.entryQT a k n))

/-- Modelled from the spec: the writes marker `k` contributes to E, one per
neighbour offset. -/
def Stencil.writesE {R : Type} (S : Stencil R) (a : KernelArgs R) (k : Nat) :
    List (Nat × (Int × Int × R)) :=
  (List.range S.supportE).map (fun n => (S.slotE a k n, S.entryE a k n))

/-- Modelled from the spec: the work done for one marker, on the entry arrays
of QT and of E. -/
def Stencil.marker {R : Type} (S : Stencil R) (a : KernelArgs R) (k : Nat)
    (b : Buffers R × Buffers R) : Buffers R × Buffers R :=
  (b.1.writeAll (S.writesQT a k), b.2.writeAll (S.writesE a k))

/-- Modelled from the spec: the sequential backend `kernels::updateQTHost`
(spec 4.3, a sequential loop over the markers `0 .. totalPoints-1`). -/
def Stencil.updateQTHost {R : Type} (S : Stencil R) (a : KernelArgs R)
    (b : Buffers R × Buffers R) : Buffers R × Buffers R :=
  (List.range a.totalPoints.toNat).foldl (fun b k => S.marker a k b) b

/-- Modelled from the spec: the data-parallel backend `kernels::updateQT`
(spec 4.3 and 5, one thread per marker, no ordering between markers).
`order gridDim blockDim` lists the launched threads, `gridDim * blockDim` of
them, in the order in which their writes take effect; a thread whose global
index is a marker index does that marker's work, any other thread does
nothing. -/
def Stencil.updateQT {R : Type} (S : Stencil R) (order : Int → Int → List Nat)
    (gridDim blockDim : Int) (a : KernelArgs R) (b : Buffers R × Buffers R) :
    Buffers R × Buffers R :=
  (order gridDim blockDim).foldl
    (fun b (idx : Nat) => if (idx : Int) < a.totalPoints then S.marker a idx b else b) b

/-- Modelled from the spec: "each marker's contribution writes to disjoint,
pre-computed slots" (spec 4.3): two different markers never share a slot of QT
or of E. -/
def Stencil.DisjointSlots {R : Type} (S : Stencil R) (a : KernelArgs R) : Prop :=
  ∀ j k : Nat, j ≠ k → (j : Int) < a.totalPoints → (k : Int) < a.totalPoints →
    (∀ m n : Nat, m < S.supportQT → n < S.supportQT → S.slotQT a j m ≠ S.slotQT a k n) ∧
    (∀ m n : Nat, m < S.supportE → n < S.supportE → S.slotE a j m ≠ S.slotE a k n)

/-- Modelled from the spec: a schedule of the device threads (spec 5, "no
ordering constraint between markers"): for every launch configuration, the
threads `0 .. gridDim*blockDim - 1`, each once, in some order. -/
def IsSchedule (order : Int → Int → List Nat) : Prop :=
  ∀ g b : Int, List.Perm (order g b) (List.range (g * b).toNat)

/-- Modelled from the spec: the routines of generateQT.h with both stencil
kernels built from one stencil `S` (spec 4.3, "two interchangeable
implementations of the identical per-marker stencil algorithm"); the
grid-gradient kernel `G` and the transposition `T` stay parameters. -/
def Stencil.routines {R : Type} (S : Stencil R) (order : Int → Int → List Nat)
    (G : Int → Int → Buffers R → Buffers R) (T : coo R → coo R) : Routines R :=
  { generateQT := G, updateQTHost := S.updateQTHost, updateQT := S.updateQT order,
    transpose := T }

/-! ## A concrete scenario

The scenario of the specification's section 8: a 4 x 4 grid and one body of 4
markers on a unit square centred in the domain.  It instantiates the
parameters of the development at explicit values. -/

/-- Insertion of an entry into a list sorted by row, before the entries of an
equal or larger row. -/
def insertByRow {R : Type} (e : Int × Int × R) : List (Int × Int × R) → List (Int × Int × R)
  | [] => [e]
  | h :: t => if e.1 ≤ h.1 then e :: h :: t else h :: insertByRow e t

/-- A transposition of a coordinate matrix, the scenario's instance of
`cusp::transpose`: the shape and the index arrays are swapped, then the
entries are sorted by row, entries of one row keeping their order. -/
def cooTranspose {R : Type} (A : coo R) : coo R :=
  let es := (List.zip A.column_indices (List.zip A.row_indices A.values)).foldr insertByRow []
  { num_rows := A.num_cols, num_cols := A.num_rows, num_entries := A.num_entries,
    row_indices := es.map (fun e => e.1),
    column_indices := es.map (fun e => e.2.1),
    values := es.map (fun e => e.2.2) }

/-- The scenario's grid: the domain [0,4] x [0,4] in 4 x 4 unit cells. -/
def demoDomain : domain ℚ :=
  { nx := 4, ny := 4,
    x := [0, 1, 2, 3, 4], y := [0, 1, 2, 3, 4], dx := [1, 1, 1, 1],
    xD := [0, 1, 2, 3, 4], yD := [0, 1, 2, 3, 4], dxD := [1, 1, 1, 1] }

/-- The scenario's body: 4 markers at the corners of the unit square centred
at (2, 2), at rest, with the cells that contain them. -/
def demoBodies : bodies ℚ :=
  { numBodies := 1, totalPoints := 4, numPoints := [4], offsets := [0],
    I := [1, 2, 2, 1], J := [1, 1, 2, 2],
    X := [3/2, 5/2, 5/2, 3/2], Y := [3/2, 3/2, 5/2, 5/2],
    x := [3/2, 5/2, 5/2, 3/2], y := [3/2, 3/2, 5/2, 5/2],
    uB := [0, 0, 0, 0], vB := [0, 0, 0, 0],
    xk := [3/2, 5/2, 5/2, 3/2], yk := [3/2, 3/2, 5/2, 5/2],
    xkp1 := [3/2, 5/2, 5/2, 3/2], ykp1 := [3/2, 3/2, 5/2, 5/2] }

/-- The scenario's solver before generateQT: QT and the transposes empty, E
sized for 24 entries per marker. -/
def demoSolver : TCFSISolver ℚ :=
  { QT := coo.create 0 0 0, Q := coo.create 0 0 0,
    E := coo.create 8 24 96, ET := coo.create 0 0 0,
    B := demoBodies, domInfo := demoDomain }

/-- A stencil for the scenario, an instance of `Stencil`: 24 neighbours per
marker, 12 in the marker's x-row and 12 in its y-row, marker `k` owning the 24
consecutive slots after those of marker `k-1` (in QT after the
`4*nx*ny - 2*(nx+ny)` grid-gradient slots); the columns are the velocity
unknowns following the marker's cell, and the value written is the marker's
x- or y-coordinate in the selected snapshot, standing in for the
interpolation weight. -/
def demoStencil : Stencil ℚ :=
  { supportQT := 24, supportE := 24,
    slotQT := fun a k n => (4 * a.nx * a.ny - 2 * (a.nx + a.ny)).toNat + 24 * k + n,
    entryQT := fun a k n =>
      (a.nx * a.ny + (if n < 12 then 0 else a.totalPoints) + k,
        (a.J.getD k 0 * (a.nx - 1) + a.I.getD k 0 + n) % (2 * a.nx * a.ny - a.nx - a.ny),
        if n < 12 then a.xB.getD k 0 else a.yB.getD k 0),
    slotE := fun _ k n => 24 * k + n,
    entryE := fun a k n =>
      ((if n < 12 then 0 else a.totalPoints) + k,
        (a.J.getD k 0 * (a.nx - 1) + a.I.getD k 0 + n) % (2 * a.nx * a.ny - a.nx - a.ny),
        if n < 12 then a.xB.getD k 0 else a.yB.getD k 0) }

/-- A schedule for the scenario: the threads take effect in descending order
of their global index. -/
def demoOrder (g b : Int) : List Nat := (List.range (g * b).toNat).reverse

/-- The routines of the scenario: both stencil kernels from `demoStencil`, a
grid-gradient kernel that leaves the arrays as it finds them, and
`cooTranspose`. -/
def demoRoutines : Routines ℚ :=
  demoStencil.routines demoOrder (fun _ _ b => b) cooTranspose

/-- The scenario's body after one marker has been dropped and the others have
moved by half a cell in x. -/
def demoBodiesMoved : bodies ℚ :=
  { demoBodies with
    totalPoints := 3, numPoints := [3], I := [2, 3, 3], J := [1, 1, 2],
    x := [2, 3, 3], y := [3/2, 3/2, 5/2] }

/-- Modelled from the spec: "unpopulated" substep buffers (spec 4.1, 4.2 and
7): the substep-k coordinate buffers have been allocated, one entry per
marker, and still hold their initial zeros, no snapshot having been recorded. -/
def substepUnpopulated {R : Type} [Zero R] (B : bodies R) : Prop :=
  B.xk = List.replicate B.totalPoints.toNat 0 ∧ B.yk = List.replicate B.totalPoints.toNat 0

/-- The scenario's body with the substep-k buffers allocated and never
written. -/
def demoBodiesNoSubstep : bodies ℚ :=
  { demoBodies with xk := [0, 0, 0, 0], yk := [0, 0, 0, 0] }

/-- A uniform grid of `n` x `n` unit cells. -/
def uniformDomain (n : Nat) : domain ℚ :=
  { nx := n, ny := n,
    x := (List.range (n + 1)).map (fun i => (i : ℚ)),
    y := (List.range (n + 1)).map (fun i => (i : ℚ)),
    dx := List.replicate n 1,
    xD := (List.range (n + 1)).map (fun i => (i : ℚ)),
    yD := (List.range (n + 1)).map (fun i => (i : ℚ)),
    dxD := List.replicate n 1 }

/-- The scenario's body of 4 markers in a grid of 65536 x 65536 unit cells. -/
def largeGridSolver : TCFSISolver ℚ :=
  { demoSolver with domInfo := uniformDomain 65536 }

/-- A flow without bodies in a grid of 23171 x 23171 unit cells. -/
def noBodySolver : TCFSISolver ℚ :=
  { QT := coo.create 0 0 0, Q := coo.create 0 0 0,
    E := coo.create 0 0 0, ET := coo.create 0 0 0,
    B := { numBodies := 0, totalPoints := 0, I := [], J := [], x := [], y := [],
           xk := [], yk := [], xkp1 := [], ykp1 := [] },
    domInfo := uniformDomain 23171 }

/-! ## Shape arithmetic -/

theorem numBlocks_eq_div (tp : Int) (h : 1 ≤ tp) : numBlocks tp = (tp - 1) / 256 + 1 := by
  unfold numBlocks truncToInt BLOCKSIZE
  have hq : (0 : ℚ) ≤ ((tp : ℚ) - 1 / 2) / ((256 : Int) : ℚ) := by
    have : (1 : ℚ) ≤ (tp : ℚ) := by exact_mod_cast h
    apply div_nonneg
    · linarith
    · norm_num
  rw [if_pos hq]
  congr 1
  rw [Int.floor_eq_iff]
  have hdm := Int.emod_add_ediv (tp - 1) 256
  have hr0 := Int.emod_nonneg (tp - 1) (by norm_num : (256 : Int) ≠ 0)
  have hr1 := Int.emod_lt_of_pos (tp - 1) (by norm_num : (0 : Int) < 256)
  set z := (tp - 1) / 256 with hz
  set r := (tp - 1) % 256 with hr
  have htp : (tp : ℚ) = 256 * (z : ℚ) + (r : ℚ) + 1 := by
    have : tp = 256 * z + r + 1 := by omega
    exact_mod_cast this
  have hr0q : (0 : ℚ) ≤ (r : ℚ) := by exact_mod_cast hr0
  have hr1q : (r : ℚ) ≤ 255 := by
    have : r ≤ 255 := by omega
    exact_mod_cast this
  constructor
  · rw [le_div_iff₀ (by norm_num)]
    push_cast
    linarith
  · rw [div_lt_iff₀ (by norm_num)]
    push_cast
    linarith

theorem numBlocks_zero : numBlocks 0 = 1 := by
  unfold numBlocks truncToInt BLOCKSIZE
  have hq : ¬ (0 : ℚ) ≤ (((0 : Int) : ℚ) - 1 / 2) / ((256 : Int) : ℚ) := by norm_num
  rw [if_neg hq]
  have : ⌈(((0 : Int) : ℚ) - 1 / 2) / ((256 : Int) : ℚ)⌉ = 0 := by
    rw [Int.ceil_eq_iff]
    norm_num
  rw [this]
  rfl

theorem generateQT_ok {R : Type} [Zero R] (mem : memoryType) (K : Routines R)
    (s : TCFSISolver R) : ∃ s', generateQT mem K s = Except.ok s' ∧
      s'.QT.shape = QTShape32 s.domInfo.nx s.domInfo.ny s.B.totalPoints := by
  cases mem
  · exact ⟨_, rfl, rfl⟩
  · exact ⟨_, rfl, rfl⟩

theorem wrapInt32_of_fits (z : Int) (h0 : -2147483648 ≤ z) (h1 : z ≤ 2147483647) :
    wrapInt32 z = z := by
  unfold wrapInt32
  omega

theorem wrapInt32_modEq (z : Int) : Int.ModEq 4294967296 (wrapInt32 z) z := by
  unfold Int.ModEq wrapInt32
  omega

theorem wrapInt32_congr {a b : Int} (h : Int.ModEq 4294967296 a b) :
    wrapInt32 a = wrapInt32 b := by
  unfold Int.ModEq at h
  unfold wrapInt32
  omega

theorem numU_modEq (nx ny : Int) : Int.ModEq 4294967296 (numU nx ny) ((nx - 1) * ny) :=
  (wrapInt32_modEq _).trans (Int.ModEq.mul_right ny (wrapInt32_modEq (nx - 1)))

theorem numUV_modEq (nx ny : Int) :
    Int.ModEq 4294967296 (numUV nx ny) ((nx - 1) * ny + nx * (ny - 1)) :=
  (wrapInt32_modEq _).trans
    (Int.ModEq.add (numU_modEq nx ny)
      ((wrapInt32_modEq _).trans (Int.ModEq.mul_left nx (wrapInt32_modEq (ny - 1)))))

theorem numP_modEq (nx ny : Int) : Int.ModEq 4294967296 (numP nx ny) (nx * ny) := by
  have h : Int.ModEq 4294967296 (numP nx ny) ((nx - 1) * ny + ny) :=
    (wrapInt32_modEq _).trans (Int.ModEq.add_right ny (numU_modEq nx ny))
  have e : (nx - 1) * ny + ny = nx * ny := by ring
  rw [e] at h
  exact h

/-- In `int` arithmetic, for all values: `numP` is `nx*ny`, and the
grid-gradient part `4*numP-2*(nx+ny)` of the nonzero count is `2*numUV`. -/
theorem gridPart32 (nx ny : Int) :
    numP nx ny = wrapInt32 (nx * ny) ∧
    wrapInt32 (wrapInt32 (4 * numP nx ny) - wrapInt32 (2 * wrapInt32 (nx + ny)))
      = wrapInt32 (2 * numUV nx ny) := by
  constructor
  · have h : Int.ModEq 4294967296 (numU nx ny + ny) (nx * ny) := by
      have h0 := Int.ModEq.add_right ny (numU_modEq nx ny)
      have e : (nx - 1) * ny + ny = nx * ny := by ring
      rw [e] at h0
      exact h0
    exact wrapInt32_congr h
  · apply wrapInt32_congr
    have hL : Int.ModEq 4294967296
        (wrapInt32 (4 * numP nx ny) - wrapInt32 (2 * wrapInt32 (nx + ny)))
        (4 * (nx * ny) - 2 * (nx + ny)) :=
      Int.ModEq.sub ((wrapInt32_modEq _).trans (Int.ModEq.mul_left 4 (numP_modEq nx ny)))
        ((wrapInt32_modEq _).trans (Int.ModEq.mul_left 2 (wrapInt32_modEq (nx + ny))))
    have hR : Int.ModEq 4294967296 (2 * numUV nx ny)
        (2 * ((nx - 1) * ny + nx * (ny - 1))) :=
      Int.ModEq.mul_left 2 (numUV_modEq nx ny)
    have e : 4 * (nx * ny) - 2 * (nx + ny) = 2 * ((nx - 1) * ny + nx * (ny - 1)) := by ring
    rw [e] at hL
    exact hL.trans hR.symm

/-- On the range `ShapeFits` no operation of the shape arithmetic overflows:
the locals and the three declared values are the exact ones. -/
theorem shape_exact (nx ny totalPoints : Int) (h : ShapeFits nx ny totalPoints) :
    numU nx ny = (nx - 1) * ny ∧
    numUV nx ny = (nx - 1) * ny + nx * (ny - 1) ∧
    numP nx ny = (nx - 1) * ny + ny ∧
    QTShape32 nx ny totalPoints
      = ((nx - 1) * ny + ny + 2 * totalPoints, (nx - 1) * ny + nx * (ny - 1),
          4 * ((nx - 1) * ny + ny) - 2 * (nx + ny) + 24 * totalPoints) := by
  obtain ⟨hx, hy, ht, hfit4, hfit⟩ := h
  unfold INT_MAX at hfit4 hfit
  have h1 : (nx - 1) * ny = nx * ny - ny := by ring
  have h2 : nx * (ny - 1) = nx * ny - nx := by ring
  have h3 : 0 ≤ (nx - 1) * ny := mul_nonneg (by omega) (by omega)
  have h4 : 0 ≤ nx * (ny - 1) := mul_nonneg (by omega) (by omega)
  have e1 : wrapInt32 (nx - 1) = nx - 1 := wrapInt32_of_fits _ (by omega) (by omega)
  have e2 : wrapInt32 ((nx - 1) * ny) = (nx - 1) * ny :=
    wrapInt32_of_fits _ (by omega) (by omega)
  have e3 : wrapInt32 (ny - 1) = ny - 1 := wrapInt32_of_fits _ (by omega) (by omega)
  have e4 : wrapInt32 (nx * (ny - 1)) = nx * (ny - 1) :=
    wrapInt32_of_fits _ (by omega) (by omega)
  have e5 : wrapInt32 ((nx - 1) * ny + nx * (ny - 1)) = (nx - 1) * ny + nx * (ny - 1) :=
    wrapInt32_of_fits _ (by omega) (by omega)
  have e6 : wrapInt32 ((nx - 1) * ny + ny) = (nx - 1) * ny + ny :=
    wrapInt32_of_fits _ (by omega) (by omega)
  have e7 : wrapInt32 (2 * totalPoints) = 2 * totalPoints :=
    wrapInt32_of_fits _ (by omega) (by omega)
  have e8 : wrapInt32 ((nx - 1) * ny + ny + 2 * totalPoints)
      = (nx - 1) * ny + ny + 2 * totalPoints :=
    wrapInt32_of_fits _ (by omega) (by omega)
  have e9 : wrapInt32 (4 * ((nx - 1) * ny + ny)) = 4 * ((nx - 1) * ny + ny) :=
    wrapInt32_of_fits _ (by omega) (by omega)
  have e10 : wrapInt32 (nx + ny) = nx + ny := wrapInt32_of_fits _ (by omega) (by omega)
  have e11 : wrapInt32 (2 * (nx + ny)) = 2 * (nx + ny) :=
    wrapInt32_of_fits _ (by omega) (by omega)
  have e12 : wrapInt32 (4 * ((nx - 1) * ny + ny) - 2 * (nx + ny))
      = 4 * ((nx - 1) * ny + ny) - 2 * (nx + ny) :=
    wrapInt32_of_fits _ (by omega) (by omega)
  have e13 : wrapInt32 (24 * totalPoints) = 24 * totalPoints :=
    wrapInt32_of_fits _ (by omega) (by omega)
  have e14 : wrapInt32 (4 * ((nx - 1) * ny + ny) - 2 * (nx + ny) + 24 * totalPoints)
      = 4 * ((nx - 1) * ny + ny) - 2 * (nx + ny) + 24 * totalPoints :=
    wrapInt32_of_fits _ (by omega) (by omega)
  simp only [QTShape32, numP, numUV, numU, e1, e2, e3, e4, e5, e6, e7, e8, e9, e10, e11,
    e12, e13, e14, and_self]

theorem QTShape32_eq (nx ny totalPoints : Int) (h : ShapeFits nx ny totalPoints) :
    QTShape32 nx ny totalPoints
      = ((nx - 1) * ny + ny + 2 * totalPoints, (nx - 1) * ny + nx * (ny - 1),
          4 * ((nx - 1) * ny + ny) - 2 * (nx + ny) + 24 * totalPoints) :=
  (shape_exact nx ny totalPoints h).2.2.2

theorem demo_ShapeFits : ShapeFits 4 4 4 := by
  unfold ShapeFits INT_MAX
  decide

/-! ## Claims on the shape of QT -/

/-- Counterexample to C1: the scenario's 4 markers in a grid of 65536 x 65536
cells.  The claim's formulas give 4294967304 rows, 8589803520 columns and
17179607136 nonzeros; generateQT, whose arithmetic is `int`, declares 8 rows,
-131072 columns and -262048 nonzeros. -/
theorem generateQT_declared_shape_counterexample :
    ∃ s', generateQT memoryType.host_memory demoRoutines largeGridSolver = Except.ok s' ∧
      largeGridSolver.domInfo.nx = 65536 ∧ largeGridSolver.domInfo.ny = 65536 ∧
      largeGridSolver.B.totalPoints = 4 ∧
      s'.QT.num_rows = 8 ∧ s'.QT.num_cols = -131072 ∧ s'.QT.num_entries = -262048 ∧
      s'.QT.num_rows ≠ ((65536 - 1) * 65536 + 65536) + 2 * 4 ∧
      s'.QT.num_cols ≠ (65536 - 1) * 65536 + 65536 * (65536 - 1) ∧
      s'.QT.num_entries
        ≠ 4 * ((65536 - 1) * 65536 + 65536) - 2 * (65536 + 65536) + 24 * 4 :=
  ⟨_, rfl, by decide, by decide, by decide, by decide, by decide, by decide, by decide,
    by decide, by decide⟩

/-- C1 (amended): generateQT (host and device alike) declares QT with the
rows, columns and nonzero count its `int` arithmetic gives for `numP + 2*nb`,
`numUV` and `4*numP - 2*(nx+ny) + 24*nb` (`QTShape32`), a shape that depends on
nothing but nx, ny and nb.  For every grid size nx, ny >= 1 and marker count
nb >= 0 on which that arithmetic does not overflow (`ShapeFits`: `4*nx*ny` and
the nonzero count at most `INT_MAX`) these are exactly `numP + 2*nb` rows,
`numUV` columns and `4*numP - 2*(nx+ny) + 24*nb` nonzeros, with
`numU = (nx-1)*ny`, `numUV = numU + nx*(ny-1)`, `numP = numU + ny`, and one
more marker, as long as it still fits, adds exactly 2 rows and 24 nonzeros;
for nx = ny = 4 and nb = 4 this is numP = 16, 24 rows, 24 columns,
144 nonzeros. -/
theorem generateQT_declared_shape {R : Type} [Zero R] (mem : memoryType) (K : Routines R)
    (s : TCFSISolver R) :
    ∃ s', generateQT mem K s = Except.ok s' ∧
      (s'.QT.num_rows, s'.QT.num_cols, s'.QT.num_entries)
        = QTShape32 s.domInfo.nx s.domInfo.ny s.B.totalPoints ∧
      (∀ (mem2 : memoryType) (K2 : Routines R) (s2 s2' : TCFSISolver R),
        s2.domInfo.nx = s.domInfo.nx → s2.domInfo.ny = s.domInfo.ny →
        s2.B.totalPoints = s.B.totalPoints →
        generateQT mem2 K2 s2 = Except.ok s2' →
        s2'.QT.num_rows = s'.QT.num_rows ∧ s2'.QT.num_cols = s'.QT.num_cols ∧
          s2'.QT.num_entries = s'.QT.num_entries) ∧
      (ShapeFits s.domInfo.nx s.domInfo.ny s.B.totalPoints →
        s'.QT.num_rows
          = ((s.domInfo.nx - 1) * s.domInfo.ny + s.domInfo.ny) + 2 * s.B.totalPoints ∧
        s'.QT.num_cols
          = (s.domInfo.nx - 1) * s.domInfo.ny + s.domInfo.nx * (s.domInfo.ny - 1) ∧
        s'.QT.num_entries
          = 4 * ((s.domInfo.nx - 1) * s.domInfo.ny + s.domInfo.ny)
              - 2 * (s.domInfo.nx + s.domInfo.ny) + 24 * s.B.totalPoints ∧
        numP s.domInfo.nx s.domInfo.ny = (s.domInfo.nx - 1) * s.domInfo.ny + s.domInfo.ny ∧
        (∀ (mem2 : memoryType) (K2 : Routines R) (s2 s2' : TCFSISolver R),
          s2.domInfo.nx = s.domInfo.nx → s2.domInfo.ny = s.domInfo.ny →
          s2.B.totalPoints = s.B.totalPoints + 1 →
          ShapeFits s2.domInfo.nx s2.domInfo.ny s2.B.totalPoints →
          generateQT mem2 K2 s2 = Except.ok s2' →
          s2'.QT.num_rows = s'.QT.num_rows + 2 ∧ s2'.QT.num_cols = s'.QT.num_cols ∧
            s2'.QT.num_entries = s'.QT.num_entries + 24)) ∧
      (s.domInfo.nx = 4 → s.domInfo.ny = 4 → s.B.totalPoints = 4 →
        numP s.domInfo.nx s.domInfo.ny = 16 ∧ s'.QT.num_rows = 16 + 8 ∧
          s'.QT.num_cols = 24 ∧ s'.QT.num_entries = 144) := by
  obtain ⟨s', hs', hshape⟩ := generateQT_ok mem K s
  simp only [coo.shape] at hshape
  have hexact : ShapeFits s.domInfo.nx s.domInfo.ny s.B.totalPoints →
      s'.QT.num_rows
        = ((s.domInfo.nx - 1) * s.domInfo.ny + s.domInfo.ny) + 2 * s.B.totalPoints ∧
      s'.QT.num_cols
        = (s.domInfo.nx - 1) * s.domInfo.ny + s.domInfo.nx * (s.domInfo.ny - 1) ∧
      s'.QT.num_entries
        = 4 * ((s.domInfo.nx - 1) * s.domInfo.ny + s.domInfo.ny)
            - 2 * (s.domInfo.nx + s.domInfo.ny) + 24 * s.B.totalPoints := by
    intro hfit
    have h := hshape.trans (QTShape32_eq _ _ _ hfit)
    simp only [Prod.mk.injEq] at h
    exact h
  refine ⟨s', hs', hshape, ?_, ?_, ?_⟩
  · intro mem2 K2 s2 s2' hx hy ht h2
    obtain ⟨t, ht', hshape2⟩ := generateQT_ok mem2 K2 s2
    rw [h2] at ht'
    cases ht'
    simp only [coo.shape] at hshape2
    rw [hx, hy, ht, ← hshape] at hshape2
    simp only [Prod.mk.injEq] at hshape2
    exact hshape2
  · intro hfit
    obtain ⟨hr, hc, hn⟩ := hexact hfit
    refine ⟨hr, hc, hn, (shape_exact _ _ _ hfit).2.2.1, ?_⟩
    intro mem2 K2 s2 s2' hx hy ht hfit2 h2
    obtain ⟨t, ht', hshape2⟩ := generateQT_ok mem2 K2 s2
    rw [h2] at ht'
    cases ht'
    simp only [coo.shape] at hshape2
    have h := hshape2.trans (QTShape32_eq _ _ _ hfit2)
    simp only [Prod.mk.injEq] at h
    obtain ⟨hr2, hc2, hn2⟩ := h
    rw [hr2, hc2, hn2, hr, hc, hn, hx, hy, ht]
    refine ⟨by ring, rfl, by ring⟩
  · intro hx hy ht
    have hfit : ShapeFits s.domInfo.nx s.domInfo.ny s.B.totalPoints := by
      rw [hx, hy, ht]
      exact demo_ShapeFits
    obtain ⟨hr, hc, hn⟩ := hexact hfit
    have hp := (shape_exact _ _ _ hfit).2.2.1
    rw [hr, hc, hn, hp, hx, hy, ht]
    decide

/-- Witness of C1 (amended): the scenario's 4 x 4 grid with 4 markers, host
backend; the shape arithmetic fits, and the shape is 24 x 24 with 144
nonzeros. -/
theorem generateQT_declared_shape_witness :
    ShapeFits demoSolver.domInfo.nx demoSolver.domInfo.ny demoSolver.B.totalPoints ∧
    ∃ s', generateQT memoryType.host_memory demoRoutines demoSolver = Except.ok s' ∧
      numP 4 4 = 16 ∧ s'.QT.num_rows = 24 ∧ s'.QT.num_cols = 24 ∧
      s'.QT.num_entries = 144 := by
  refine ⟨demo_ShapeFits, ?_⟩
  obtain ⟨s', hs', _, _, hex, _⟩ :=
    generateQT_declared_shape memoryType.host_memory demoRoutines demoSolver
  obtain ⟨hr, hc, hn, hp, _⟩ := hex demo_ShapeFits
  refine ⟨s', hs', by decide, ?_, ?_, ?_⟩
  · rw [hr]; decide
  · rw [hc]; decide
  · rw [hn]; decide

/-- Counterexample to C9: a grid of 23171 x 23171 cells without bodies, so
nx, ny >= 1 and totalPoints >= 0.  `4*numP` overflows the `int`, and the
nonzero count generateQT declares is -2147479016, not non-negative and not
`2*numUV + 24*totalPoints` = 2147488280. -/
theorem generateQT_nonzero_count_counterexample :
    ∃ s', generateQT memoryType.host_memory demoRoutines noBodySolver = Except.ok s' ∧
      1 ≤ noBodySolver.domInfo.nx ∧ 1 ≤ noBodySolver.domInfo.ny ∧
      0 ≤ noBodySolver.B.totalPoints ∧
      s'.QT.num_entries = -2147479016 ∧ s'.QT.num_entries < 0 ∧
      s'.QT.num_entries
        ≠ 2 * ((23171 - 1) * 23171 + 23171 * (23171 - 1)) + 24 * 0 :=
  ⟨_, rfl, by decide, by decide, by decide, by decide, by decide, by decide⟩

/-- C9 (amended): in the `int` arithmetic of generateQT, for all values of nx
and ny, `numP`, computed as `(nx-1)*ny + ny`, is `nx*ny`, the grid-gradient
part `4*numP - 2*(nx+ny)` of the nonzero count is `2*numUV`, and the nonzero
count generateQT declares (either backend) is `2*numUV + 24*totalPoints`, each
as that arithmetic gives it.  For nx, ny >= 1 and totalPoints >= 0 on which
the arithmetic does not overflow (`ShapeFits`: `4*nx*ny` and the nonzero count
at most `INT_MAX`) these are the exact integers:
`4*numP - 2*(nx+ny) = 2*numUV`, `numP = nx*ny`, the declared count equals
`2*numUV + 24*totalPoints`, and it is non-negative. -/
theorem generateQT_nonzero_count {R : Type} [Zero R] (mem : memoryType) (K : Routines R)
    (s : TCFSISolver R) :
    numP s.domInfo.nx s.domInfo.ny = wrapInt32 (s.domInfo.nx * s.domInfo.ny) ∧
    wrapInt32 (wrapInt32 (4 * numP s.domInfo.nx s.domInfo.ny)
        - wrapInt32 (2 * wrapInt32 (s.domInfo.nx + s.domInfo.ny)))
      = wrapInt32 (2 * numUV s.domInfo.nx s.domInfo.ny) ∧
    ∃ s', generateQT mem K s = Except.ok s' ∧
      s'.QT.num_entries
        = wrapInt32 (wrapInt32 (2 * numUV s.domInfo.nx s.domInfo.ny)
            + wrapInt32 (24 * s.B.totalPoints)) ∧
      (ShapeFits s.domInfo.nx s.domInfo.ny s.B.totalPoints →
        4 * numP s.domInfo.nx s.domInfo.ny - 2 * (s.domInfo.nx + s.domInfo.ny)
          = 2 * numUV s.domInfo.nx s.domInfo.ny ∧
        numP s.domInfo.nx s.domInfo.ny = s.domInfo.nx * s.domInfo.ny ∧
        numUV s.domInfo.nx s.domInfo.ny
          = (s.domInfo.nx - 1) * s.domInfo.ny + s.domInfo.nx * (s.domInfo.ny - 1) ∧
        s'.QT.num_entries
          = 2 * numUV s.domInfo.nx s.domInfo.ny + 24 * s.B.totalPoints ∧
        0 ≤ s'.QT.num_entries) := by
  obtain ⟨hP, hG⟩ := gridPart32 s.domInfo.nx s.domInfo.ny
  refine ⟨hP, hG, ?_⟩
  obtain ⟨s', hs', hshape⟩ := generateQT_ok mem K s
  simp only [coo.shape, QTShape32, Prod.mk.injEq] at hshape
  obtain ⟨_, _, hn⟩ := hshape
  refine ⟨s', hs', ?_, ?_⟩
  · rw [hn, hG]
  · intro hfit
    obtain ⟨_, hUV, hNP, hQ⟩ := shape_exact _ _ _ hfit
    simp only [QTShape32, Prod.mk.injEq] at hQ
    obtain ⟨hx, hy, ht, _, _⟩ := hfit
    have hn2 : s'.QT.num_entries
        = 4 * ((s.domInfo.nx - 1) * s.domInfo.ny + s.domInfo.ny)
            - 2 * (s.domInfo.nx + s.domInfo.ny) + 24 * s.B.totalPoints := hn.trans hQ.2.2
    have ha : 0 ≤ (s.domInfo.nx - 1) * s.domInfo.ny :=
      mul_nonneg (by omega) (by omega)
    have hb : 0 ≤ s.domInfo.nx * (s.domInfo.ny - 1) :=
      mul_nonneg (by omega) (by omega)
    have h1 : (s.domInfo.nx - 1) * s.domInfo.ny = s.domInfo.nx * s.domInfo.ny - s.domInfo.ny := by
      ring
    have h2 : s.domInfo.nx * (s.domInfo.ny - 1) = s.domInfo.nx * s.domInfo.ny - s.domInfo.nx := by
      ring
    rw [hn2, hUV, hNP]
    refine ⟨by ring, by ring, rfl, by ring, ?_⟩
    omega

/-- Witness of C9 (amended): the scenario's 4 x 4 grid with 4 markers; the
arithmetic fits, `numP` is 16, `numUV` is 24 and the declared count is 144. -/
theorem generateQT_nonzero_count_witness :
    ShapeFits demoSolver.domInfo.nx demoSolver.domInfo.ny demoSolver.B.totalPoints ∧
    ∃ s', generateQT memoryType.host_memory demoRoutines demoSolver = Except.ok s' ∧
      s'.QT.num_entries = 2 * numUV 4 4 + 24 * 4 ∧ 0 ≤ s'.QT.num_entries := by
  refine ⟨demo_ShapeFits, ?_⟩
  obtain ⟨_, _, s', hs', _, hex⟩ :=
    generateQT_nonzero_count memoryType.host_memory demoRoutines demoSolver
  obtain ⟨_, _, _, hn, h0⟩ := hex demo_ShapeFits
  exact ⟨s', hs', hn, h0⟩

/-- C10: for every totalPoints >= 1 the number of blocks launched by the device
updateQT, `int((totalPoints-0.5)/256)+1`, equals `ceil(totalPoints/256)`, so
`blocks*256 >= totalPoints` and `(blocks-1)*256 < totalPoints`; for
totalPoints = 0 exactly one block is launched; and the device updateQT launches
its kernel on that many blocks of 256 threads. -/
theorem numBlocks_ceil :
    (∀ tp : Int, 1 ≤ tp →
      numBlocks tp = ⌈(tp : ℚ) / 256⌉ ∧
      numBlocks tp * BLOCKSIZE ≥ tp ∧ (numBlocks tp - 1) * BLOCKSIZE < tp) ∧
    numBlocks 0 = 1 ∧
    (∀ (R : Type) (K : Routines R) (s : TCFSISolver R) (isSubStep : Bool),
      ∃ s', updateQT_device K s isSubStep = Except.ok s' ∧
        (s'.QT.buffers, s'.E.buffers)
          = K.updateQT (truncToInt (((s.B.totalPoints : ℚ) - 1 / 2) / 256) + 1) 256
              (kernelArgs_device s isSubStep) (s.QT.buffers, s.E.buffers)) := by
  refine ⟨?_, numBlocks_zero, fun R K s isSubStep => ⟨_, rfl, ?_⟩⟩
  swap
  · have hb : truncToInt (((s.B.totalPoints : ℚ) - 1 / 2) / 256) + 1
        = numBlocks s.B.totalPoints := by
      simp [numBlocks, BLOCKSIZE]
    rw [hb]
    rfl
  intro tp h
  have hb := numBlocks_eq_div tp h
  have hdm := Int.emod_add_ediv (tp - 1) 256
  have hr0 := Int.emod_nonneg (tp - 1) (by norm_num : (256 : Int) ≠ 0)
  have hr1 := Int.emod_lt_of_pos (tp - 1) (by norm_num : (0 : Int) < 256)
  refine ⟨?_, ?_, ?_⟩
  · rw [hb, eq_comm, Int.ceil_eq_iff]
    set z := (tp - 1) / 256 with hz
    set r := (tp - 1) % 256 with hr
    have htp : (tp : ℚ) = 256 * (z : ℚ) + (r : ℚ) + 1 := by
      have : tp = 256 * z + r + 1 := by omega
      exact_mod_cast this
    have hr0q : (0 : ℚ) ≤ (r : ℚ) := by exact_mod_cast hr0
    have hr1q : (r : ℚ) ≤ 255 := by
      have : r ≤ 255 := by omega
      exact_mod_cast this
    constructor
    · rw [lt_div_iff₀ (by norm_num)]
      push_cast
      linarith
    · rw [div_le_iff₀ (by norm_num)]
      push_cast
      linarith
  · rw [hb]; unfold BLOCKSIZE; omega
  · rw [hb]; unfold BLOCKSIZE; omega

/-- Witness of C10: 300 markers are served by 2 blocks of 256 threads. -/
theorem numBlocks_ceil_witness :
    numBlocks 300 = ⌈((300 : Int) : ℚ) / 256⌉ ∧
      numBlocks 300 * BLOCKSIZE ≥ 300 ∧ (numBlocks 300 - 1) * BLOCKSIZE < 300 :=
  numBlocks_ceil.1 300 (by decide)

/-! ## Claims on updateQT -/

theorem updateQT_ok {R : Type} (mem : memoryType) (K : Routines R) (s : TCFSISolver R)
    (isSubStep : Bool) : ∃ s', updateQT mem K s isSubStep = Except.ok s' ∧
      s'.QT.shape = s.QT.shape ∧ s'.E.shape = s.E.shape ∧
      s'.Q = K.transpose s'.QT ∧ s'.ET = K.transpose s'.E ∧
      s'.B = s.B ∧ s'.domInfo = s.domInfo := by
  cases mem
  · exact ⟨_, rfl, rfl, rfl, rfl, rfl, rfl, rfl⟩
  · exact ⟨_, rfl, rfl, rfl, rfl, rfl, rfl, rfl⟩

/-- C2: for every state and either value of isSubStep, updateQT returns with QT
and E holding what the stencil kernel wrote when called on the coordinate
snapshot the flag selects, (B.x, B.y) when the flag is false and (B.xk, B.yk)
when it is true, with the cell indices (B.I, B.J), the backend's grid arrays,
nx, ny and B.totalPoints whatever the flag; and the substep-k+1 coordinates
are not read: replacing B.xkp1 and B.ykp1 by any other arrays changes nothing
in the result but those two fields. -/
theorem updateQT_uses_selected_snapshot {R : Type} (K : Routines R)
    (s : TCFSISolver R) (isSubStep : Bool) :
    (∃ s', updateQT memoryType.host_memory K s isSubStep = Except.ok s' ∧
      (s'.QT.buffers, s'.E.buffers)
        = K.updateQTHost
            { nx := s.domInfo.nx, ny := s.domInfo.ny,
              x := s.domInfo.x, y := s.domInfo.y, dx := s.domInfo.dx,
              totalPoints := s.B.totalPoints,
              xB := if isSubStep then s.B.xk else s.B.x,
              yB := if isSubStep then s.B.yk else s.B.y,
              I := s.B.I, J := s.B.J }
            (s.QT.buffers, s.E.buffers) ∧
      ∀ xkp1 ykp1 : List R,
        updateQT memoryType.host_memory K
            { s with B := { s.B with xkp1 := xkp1, ykp1 := ykp1 } } isSubStep
          = Except.ok { s' with B := { s.B with xkp1 := xkp1, ykp1 := ykp1 } }) ∧
    (∃ s', updateQT memoryType.device_memory K s isSubStep = Except.ok s' ∧
      (s'.QT.buffers, s'.E.buffers)
        = K.updateQT (numBlocks s.B.totalPoints) BLOCKSIZE
            { nx := s.domInfo.nx, ny := s.domInfo.ny,
              x := s.domInfo.xD, y := s.domInfo.yD, dx := s.domInfo.dxD,
              totalPoints := s.B.totalPoints,
              xB := if isSubStep then s.B.xk else s.B.x,
              yB := if isSubStep then s.B.yk else s.B.y,
              I := s.B.I, J := s.B.J }
            (s.QT.buffers, s.E.buffers) ∧
      ∀ xkp1 ykp1 : List R,
        updateQT memoryType.device_memory K
            { s with B := { s.B with xkp1 := xkp1, ykp1 := ykp1 } } isSubStep
          = Except.ok { s' with B := { s.B with xkp1 := xkp1, ykp1 := ykp1 } }) := by
  cases isSubStep
  · exact ⟨⟨_, rfl, rfl, fun _ _ => rfl⟩, ⟨_, rfl, rfl, fun _ _ => rfl⟩⟩
  · exact ⟨⟨_, rfl, rfl, fun _ _ => rfl⟩, ⟨_, rfl, rfl, fun _ _ => rfl⟩⟩

/-- C3: after every call of updateQT, for either value of isSubStep, Q is the
transpose of the QT the call leaves and ET the transpose of the E it leaves,
the operators as written by the stencil kernel; the same holds after
generateQT, which ends by calling updateQT with isSubStep = false. -/
theorem transposes_in_sync {R : Type} [Zero R] (mem : memoryType) (K : Routines R)
    (s : TCFSISolver R) :
    (∀ isSubStep : Bool, ∃ s', updateQT mem K s isSubStep = Except.ok s' ∧
      s'.Q = K.transpose s'.QT ∧ s'.ET = K.transpose s'.E ∧
      (s'.QT.buffers, s'.E.buffers)
        = (match mem with
          | .host_memory => K.updateQTHost (kernelArgs_host s isSubStep)
          | .device_memory => K.updateQT (numBlocks s.B.totalPoints) BLOCKSIZE
              (kernelArgs_device s isSubStep)) (s.QT.buffers, s.E.buffers)) ∧
    (∃ s1 s', generateQT mem K s = updateQT mem K s1 false ∧
      generateQT mem K s = Except.ok s' ∧
      s'.Q = K.transpose s'.QT ∧ s'.ET = K.transpose s'.E) := by
  constructor
  · intro isSubStep
    cases mem
    · exact ⟨_, rfl, rfl, rfl, rfl⟩
    · exact ⟨_, rfl, rfl, rfl, rfl⟩
  · cases mem
    · exact ⟨_, _, rfl, rfl, rfl, rfl⟩
    · exact ⟨_, _, rfl, rfl, rfl, rfl⟩

theorem updateQT_calls_shape {R : Type} (mem : memoryType) (K : Routines R)
    (calls : List (bodies R × Bool)) : ∀ s : TCFSISolver R,
    ∃ s', updateQT_calls mem K calls s = Except.ok s' ∧
      s'.QT.shape = s.QT.shape ∧ s'.E.shape = s.E.shape := by
  induction calls with
  | nil => intro s; exact ⟨s, rfl, rfl, rfl⟩
  | cons c rest ih =>
    intro s
    obtain ⟨B, isSubStep⟩ := c
    obtain ⟨s1, h1, hq, he, _⟩ := updateQT_ok mem K { s with B := B } isSubStep
    obtain ⟨s2, h2, hq2, he2⟩ := ih s1
    refine ⟨s2, ?_, hq2.trans hq, he2.trans he⟩
    simp only [updateQT_calls, h1]
    exact h2

/-- C4: updateQT never resizes an operator: for every state and either flag the
declared row count, column count and nonzero count of QT and of E after the
call are those before it; hence after generateQT followed by any number of
updateQT calls (the bodies moved in between, any flags) QT still has the shape
generateQT gave it: the one its `int` arithmetic computes, which is
`numP + 2*nb` rows, `numUV` columns and `4*numP - 2*(nx+ny) + 24*nb` nonzeros
wherever that arithmetic does not overflow. -/
theorem updateQT_preserves_shape {R : Type} [Zero R] (mem : memoryType) (K : Routines R)
    (s : TCFSISolver R) :
    (∀ isSubStep : Bool, ∃ s', updateQT mem K s isSubStep = Except.ok s' ∧
      s'.QT.num_rows = s.QT.num_rows ∧ s'.QT.num_cols = s.QT.num_cols ∧
      s'.QT.num_entries = s.QT.num_entries ∧
      s'.E.num_rows = s.E.num_rows ∧ s'.E.num_cols = s.E.num_cols ∧
      s'.E.num_entries = s.E.num_entries) ∧
    (∀ calls : List (bodies R × Bool), ∃ s0 sN,
      generateQT mem K s = Except.ok s0 ∧ updateQT_calls mem K calls s0 = Except.ok sN ∧
      sN.QT.num_rows = s0.QT.num_rows ∧ sN.QT.num_cols = s0.QT.num_cols ∧
      sN.QT.num_entries = s0.QT.num_entries ∧
      (sN.QT.num_rows, sN.QT.num_cols, sN.QT.num_entries)
        = QTShape32 s.domInfo.nx s.domInfo.ny s.B.totalPoints ∧
      (ShapeFits s.domInfo.nx s.domInfo.ny s.B.totalPoints →
        sN.QT.num_rows
          = (s.domInfo.nx - 1) * s.domInfo.ny + s.domInfo.ny + 2 * s.B.totalPoints ∧
        sN.QT.num_cols
          = (s.domInfo.nx - 1) * s.domInfo.ny + s.domInfo.nx * (s.domInfo.ny - 1) ∧
        sN.QT.num_entries
          = 4 * ((s.domInfo.nx - 1) * s.domInfo.ny + s.domInfo.ny)
              - 2 * (s.domInfo.nx + s.domInfo.ny) + 24 * s.B.totalPoints)) := by
  constructor
  · intro isSubStep
    obtain ⟨s', h, hq, he, _⟩ := updateQT_ok mem K s isSubStep
    simp only [coo.shape, Prod.mk.injEq] at hq he
    exact ⟨s', h, hq.1, hq.2.1, hq.2.2, he.1, he.2.1, he.2.2⟩
  · intro calls
    obtain ⟨s0, h0, hshape⟩ := generateQT_ok mem K s
    obtain ⟨sN, hN, hq, _⟩ := updateQT_calls_shape mem K calls s0
    have hq0 := hq
    rw [hshape] at hq
    simp only [coo.shape, Prod.mk.injEq] at hq0
    simp only [coo.shape] at hq
    refine ⟨s0, sN, h0, hN, hq0.1, hq0.2.1, hq0.2.2, hq, ?_⟩
    intro hfit
    have h := hq.trans (QTShape32_eq _ _ _ hfit)
    simp only [Prod.mk.injEq] at h
    exact h

/-! ## Writes into pre-assigned slots -/

theorem Buffers.write_write {R : Type} (b : Buffers R) (i : Nat) (u v : Int × Int × R) :
    (b.write i u).write i v = b.write i v := by
  simp [Buffers.write, List.set_set]

theorem Buffers.write_comm {R : Type} (b : Buffers R) (i j : Nat) (h : i ≠ j)
    (u v : Int × Int × R) : (b.write i u).write j v = (b.write j v).write i u := by
  simp only [Buffers.write]
  rw [List.set_comm _ _ _ h, List.set_comm _ _ _ h, List.set_comm _ _ _ h]

theorem Buffers.writeAll_append {R : Type} (b : Buffers R)
    (ws1 ws2 : List (Nat × (Int × Int × R))) :
    b.writeAll (ws1 ++ ws2) = (b.writeAll ws1).writeAll ws2 := by
  simp [Buffers.writeAll, List.foldl_append]

theorem Buffers.writeAll_cons {R : Type} (b : Buffers R) (w : Nat × (Int × Int × R))
    (ws : List (Nat × (Int × Int × R))) :
    b.writeAll (w :: ws) = (b.write w.1 w.2).writeAll ws := rfl

theorem Buffers.writeAll_absorb {R : Type} (ws : List (Nat × (Int × Int × R))) :
    ∀ (b : Buffers R) (i : Nat) (u v : Int × Int × R),
      ((b.write i u).writeAll ws).write i v = (b.writeAll ws).write i v := by
  induction ws with
  | nil => intro b i u v; exact Buffers.write_write b i u v
  | cons w ws ih =>
    intro b i u v
    rw [Buffers.writeAll_cons, Buffers.writeAll_cons]
    by_cases h : i = w.1
    · subst h
      rw [Buffers.write_write]
    · rw [Buffers.write_comm b i w.1 h, ih]

theorem Buffers.writeAll_idem {R : Type} (ws : List (Nat × (Int × Int × R))) :
    ∀ b : Buffers R, (b.writeAll ws).writeAll ws = b.writeAll ws := by
  induction ws using List.reverseRecOn with
  | nil => intro b; rfl
  | append_singleton ws w ih =>
    intro b
    have hlast : ∀ c : Buffers R, c.writeAll (ws ++ [w]) = (c.writeAll ws).write w.1 w.2 := by
      intro c
      rw [Buffers.writeAll_append]
      rfl
    rw [hlast b, hlast, Buffers.writeAll_absorb, ih]

theorem Buffers.write_writeAll_comm {R : Type} (ws : List (Nat × (Int × Int × R))) (i : Nat)
    (hi : ∀ w ∈ ws, i ≠ w.1) :
    ∀ (b : Buffers R) (e : Int × Int × R),
      (b.write i e).writeAll ws = (b.writeAll ws).write i e := by
  induction ws with
  | nil => intro b e; rfl
  | cons w ws ih =>
    intro b e
    rw [Buffers.writeAll_cons, Buffers.writeAll_cons,
      Buffers.write_comm b i w.1 (hi w (List.mem_cons_self _ _)),
      ih (fun x hx => hi x (List.mem_cons_of_mem _ hx))]

theorem Buffers.writeAll_comm {R : Type} (ws1 ws2 : List (Nat × (Int × Int × R)))
    (h : ∀ w1 ∈ ws1, ∀ w2 ∈ ws2, w1.1 ≠ w2.1) :
    ∀ b : Buffers R, (b.writeAll ws1).writeAll ws2 = (b.writeAll ws2).writeAll ws1 := by
  induction ws1 with
  | nil => intro b; rfl
  | cons w ws1 ih =>
    intro b
    rw [Buffers.writeAll_cons, Buffers.writeAll_cons,
      ih (fun x hx => h x (List.mem_cons_of_mem _ hx)),
      Buffers.write_writeAll_comm ws2 w.1 (h w (List.mem_cons_self _ _))]

/-! ## The two backends of the stencil -/

theorem Stencil.foldl_marker {R : Type} (S : Stencil R) (a : KernelArgs R) (ks : List Nat) :
    ∀ b : Buffers R × Buffers R,
      ks.foldl (fun b k => S.marker a k b) b
        = (b.1.writeAll (ks.flatMap (S.writesQT a)), b.2.writeAll (ks.flatMap (S.writesE a))) := by
  induction ks with
  | nil => intro b; rfl
  | cons k ks ih =>
    intro b
    rw [List.foldl_cons, ih]
    simp only [Stencil.marker, List.flatMap_cons, Buffers.writeAll_append]

theorem Stencil.updateQTHost_idem {R : Type} (S : Stencil R) (a : KernelArgs R)
    (b : Buffers R × Buffers R) :
    S.updateQTHost a (S.updateQTHost a b) = S.updateQTHost a b := by
  simp only [Stencil.updateQTHost, Stencil.foldl_marker, Buffers.writeAll_idem]

theorem Stencil.marker_comm {R : Type} (S : Stencil R) (a : KernelArgs R)
    (hd : S.DisjointSlots a) (j k : Nat) (hj : (j : Int) < a.totalPoints)
    (hk : (k : Int) < a.totalPoints) (b : Buffers R × Buffers R) :
    S.marker a k (S.marker a j b) = S.marker a j (S.marker a k b) := by
  by_cases hjk : j = k
  · subst hjk; rfl
  · obtain ⟨hq, he⟩ := hd j k hjk hj hk
    simp only [Stencil.marker]
    congr 1
    · apply Buffers.writeAll_comm
      intro w1 h1 w2 h2
      simp only [Stencil.writesQT, List.mem_map, List.mem_range] at h1 h2
      obtain ⟨m, hm, rfl⟩ := h1
      obtain ⟨n, hn, rfl⟩ := h2
      exact hq m n hm hn
    · apply Buffers.writeAll_comm
      intro w1 h1 w2 h2
      simp only [Stencil.writesE, List.mem_map, List.mem_range] at h1 h2
      obtain ⟨m, hm, rfl⟩ := h1
      obtain ⟨n, hn, rfl⟩ := h2
      exact he m n hm hn

theorem foldl_guard_eq_filter {α β : Type} (p : α → Bool) (f : β → α → β) (l : List α) :
    ∀ b : β, l.foldl (fun b x => if p x then f b x else b) b = (l.filter p).foldl f b := by
  induction l with
  | nil => intro b; rfl
  | cons x l ih =>
    intro b
    by_cases hx : p x = true
    · simp [List.filter_cons, hx, ih]
    · simp [List.filter_cons, hx, ih]

theorem filter_lt_range (t : Nat) : ∀ n : Nat, t ≤ n →
    (List.range n).filter (fun i => decide (i < t)) = List.range t := by
  intro n hn
  obtain ⟨d, rfl⟩ := Nat.exists_eq_add_of_le hn
  rw [List.range_add, List.filter_append]
  have h1 : (List.range t).filter (fun i => decide (i < t)) = List.range t := by
    rw [List.filter_eq_self]
    intro i hi
    simpa using List.mem_range.mp hi
  have h2 : (List.map (fun x => t + x) (List.range d)).filter (fun i => decide (i < t)) = [] := by
    rw [List.filter_eq_nil_iff]
    intro i hi
    simp only [List.mem_map, List.mem_range] at hi
    obtain ⟨x, _, rfl⟩ := hi
    simp
  rw [h1, h2, List.append_nil]

theorem Stencil.updateQT_eq_host {R : Type} (S : Stencil R) (order : Int → Int → List Nat)
    (ho : IsSchedule order) (g bd : Int) (a : KernelArgs R) (hd : S.DisjointSlots a)
    (hcover : a.totalPoints.toNat ≤ (g * bd).toNat) (b : Buffers R × Buffers R) :
    S.updateQT order g bd a b = S.updateQTHost a b := by
  have hguard : ∀ idx : Nat, ((idx : Int) < a.totalPoints) ↔ idx < a.totalPoints.toNat := by
    intro idx; omega
  have h1 : S.updateQT order g bd a b
      = ((order g bd).filter (fun i => decide (i < a.totalPoints.toNat))).foldl
          (fun b k => S.marker a k b) b := by
    rw [← foldl_guard_eq_filter]
    simp only [Stencil.updateQT, hguard, decide_eq_true_eq]
  rw [h1, Stencil.updateQTHost, ← filter_lt_range a.totalPoints.toNat _ hcover]
  apply List.Perm.foldl_eq' (List.Perm.filter _ (ho g bd))
  intro x hx y hy z
  have hx' : (x : Int) < a.totalPoints := by
    have := (List.mem_filter.mp hx).2
    simp only [decide_eq_true_eq] at this
    omega
  have hy' : (y : Int) < a.totalPoints := by
    have := (List.mem_filter.mp hy).2
    simp only [decide_eq_true_eq] at this
    omega
  exact S.marker_comm a hd x y hx' hy' z

theorem numBlocks_cover (tp : Int) : tp.toNat ≤ (numBlocks tp * BLOCKSIZE).toNat := by
  by_cases h : 1 ≤ tp
  · have hb := numBlocks_eq_div tp h
    have hdm := Int.emod_add_ediv (tp - 1) 256
    have hr1 := Int.emod_lt_of_pos (tp - 1) (by norm_num : (0 : Int) < 256)
    rw [hb]
    unfold BLOCKSIZE
    omega
  · have : tp.toNat = 0 := by omega
    rw [this]
    exact Nat.zero_le _

theorem coo.withBuffers_buffers {R : Type} (A : coo R) : A.withBuffers A.buffers = A := rfl

theorem coo.buffers_withBuffers {R : Type} (A : coo R) (b : Buffers R) :
    (A.withBuffers b).buffers = b := rfl

theorem coo.withBuffers_withBuffers {R : Type} (A : coo R) (b c : Buffers R) :
    (A.withBuffers b).withBuffers c = A.withBuffers c := rfl

theorem TCFSISolver.ext_fields {R : Type} (s t : TCFSISolver R) (hQT : s.QT = t.QT)
    (hQ : s.Q = t.Q) (hE : s.E = t.E) (hET : s.ET = t.ET) (hB : s.B = t.B)
    (hd : s.domInfo = t.domInfo) : s = t := by
  cases s
  cases t
  simp only at hQT hQ hE hET hB hd
  simp only [TCFSISolver.mk.injEq]
  exact ⟨hQT, hQ, hE, hET, hB, hd⟩

theorem updateQT_host_again {R : Type} (K1 K2 : Routines R) (ht : K2.transpose = K1.transpose)
    (s : TCFSISolver R) (isSubStep : Bool)
    (h : K2.updateQTHost (kernelArgs_host s isSubStep)
          (K1.updateQTHost (kernelArgs_host s isSubStep) (s.QT.buffers, s.E.buffers))
        = K1.updateQTHost (kernelArgs_host s isSubStep) (s.QT.buffers, s.E.buffers)) :
    ∃ s1, updateQT_host K1 s isSubStep = Except.ok s1 ∧
      ∀ s2 : TCFSISolver R, s2.QT = s1.QT → s2.E = s1.E →
        kernelArgs_host s2 isSubStep = kernelArgs_host s isSubStep →
        ∃ s3, updateQT_host K2 s2 isSubStep = Except.ok s3 ∧
          s3.QT = s1.QT ∧ s3.E = s1.E ∧ s3.Q = s1.Q ∧ s3.ET = s1.ET := by
  refine ⟨_, rfl, ?_⟩
  intro s2 hq he ha
  refine ⟨_, rfl, ?_⟩
  simp only [ha, hq, he, coo.buffers_withBuffers, Prod.mk.eta, h, ht,
    coo.withBuffers_withBuffers, and_self]

theorem updateQT_device_again {R : Type} (K1 K2 : Routines R)
    (ht : K2.transpose = K1.transpose) (s : TCFSISolver R) (isSubStep : Bool)
    (h : K2.updateQT (numBlocks s.B.totalPoints) BLOCKSIZE (kernelArgs_device s isSubStep)
          (K1.updateQT (numBlocks s.B.totalPoints) BLOCKSIZE (kernelArgs_device s isSubStep)
            (s.QT.buffers, s.E.buffers))
        = K1.updateQT (numBlocks s.B.totalPoints) BLOCKSIZE (kernelArgs_device s isSubStep)
            (s.QT.buffers, s.E.buffers)) :
    ∃ s1, updateQT_device K1 s isSubStep = Except.ok s1 ∧
      ∀ s2 : TCFSISolver R, s2.QT = s1.QT → s2.E = s1.E →
        kernelArgs_device s2 isSubStep = kernelArgs_device s isSubStep →
        ∃ s3, updateQT_device K2 s2 isSubStep = Except.ok s3 ∧
          s3.QT = s1.QT ∧ s3.E = s1.E ∧ s3.Q = s1.Q ∧ s3.ET = s1.ET := by
  refine ⟨_, rfl, ?_⟩
  intro s2 hq he ha
  have htp : s2.B.totalPoints = s.B.totalPoints := congrArg KernelArgs.totalPoints ha
  refine ⟨_, rfl, ?_⟩
  simp only [ha, hq, he, htp, coo.buffers_withBuffers, Prod.mk.eta, h, ht,
    coo.withBuffers_withBuffers, and_self]

theorem demoStencil_disjoint (a : KernelArgs ℚ) : demoStencil.DisjointSlots a := by
  intro j k hjk _ _
  constructor
  · intro m n hm hn
    simp only [demoStencil] at hm hn ⊢
    omega
  · intro m n hm hn
    simp only [demoStencil] at hm hn ⊢
    omega

theorem demoOrder_schedule : IsSchedule demoOrder :=
  fun _ _ => List.reverse_perm _

/-! ## Claims on the stencil kernels -/

/-- C5: updateQT is idempotent.  With the stencil kernels of the specification
(every marker's weights written into pre-assigned slots), for every state and
either flag: when the host updateQT is called again on the operators the first
call left, with the marker coordinates, cell indices, marker count and grid it
had, it leaves QT, E, Q and ET identical to those after the first call (shape,
indices and values); in particular a second call on the state the first one
returned returns that very state.  The same holds for the device backend,
whatever the order in which the threads of either launch take effect, when
the markers own disjoint slots. -/
theorem updateQT_idempotent {R : Type} (S : Stencil R) (order : Int → Int → List Nat)
    (G : Int → Int → Buffers R → Buffers R) (T : coo R → coo R) (s : TCFSISolver R)
    (isSubStep : Bool) :
    (∃ s1, updateQT memoryType.host_memory (S.routines order G T) s isSubStep = Except.ok s1 ∧
      updateQT memoryType.host_memory (S.routines order G T) s1 isSubStep = Except.ok s1 ∧
      ∀ s2 : TCFSISolver R, s2.QT = s1.QT → s2.E = s1.E →
        kernelArgs_host s2 isSubStep = kernelArgs_host s isSubStep →
        ∃ s3, updateQT memoryType.host_memory (S.routines order G T) s2 isSubStep
            = Except.ok s3 ∧
          s3.QT = s1.QT ∧ s3.E = s1.E ∧ s3.Q = s1.Q ∧ s3.ET = s1.ET) ∧
    (∀ order2 : Int → Int → List Nat, IsSchedule order → IsSchedule order2 →
      S.DisjointSlots (kernelArgs_device s isSubStep) →
      ∃ s1, updateQT memoryType.device_memory (S.routines order G T) s isSubStep
          = Except.ok s1 ∧
        updateQT memoryType.device_memory (S.routines order2 G T) s1 isSubStep
          = Except.ok s1 ∧
        ∀ s2 : TCFSISolver R, s2.QT = s1.QT → s2.E = s1.E →
          kernelArgs_device s2 isSubStep = kernelArgs_device s isSubStep →
          ∃ s3, updateQT memoryType.device_memory (S.routines order2 G T) s2 isSubStep
              = Except.ok s3 ∧
            s3.QT = s1.QT ∧ s3.E = s1.E ∧ s3.Q = s1.Q ∧ s3.ET = s1.ET) := by
  constructor
  · obtain ⟨s1, h1, h2⟩ :=
      updateQT_host_again (S.routines order G T) (S.routines order G T) rfl s isSubStep
        (S.updateQTHost_idem _ _)
    refine ⟨s1, h1, ?_, h2⟩
    obtain ⟨s3, h3, hq, he, hQ, hE⟩ := h2 s1 rfl rfl (by cases h1; rfl)
    have hB : s3.B = s1.B ∧ s3.domInfo = s1.domInfo := by
      cases h3
      exact ⟨rfl, rfl⟩
    rw [TCFSISolver.ext_fields s3 s1 hq hQ he hE hB.1 hB.2] at h3
    exact h3
  · intro order2 ho ho2 hd
    have hc : (kernelArgs_device s isSubStep).totalPoints.toNat
        ≤ (numBlocks s.B.totalPoints * BLOCKSIZE).toNat := numBlocks_cover s.B.totalPoints
    have hker : S.updateQT order2 (numBlocks s.B.totalPoints) BLOCKSIZE
          (kernelArgs_device s isSubStep)
          (S.updateQT order (numBlocks s.B.totalPoints) BLOCKSIZE
            (kernelArgs_device s isSubStep) (s.QT.buffers, s.E.buffers))
        = S.updateQT order (numBlocks s.B.totalPoints) BLOCKSIZE
            (kernelArgs_device s isSubStep) (s.QT.buffers, s.E.buffers) := by
      rw [S.updateQT_eq_host order ho _ _ _ hd hc, S.updateQT_eq_host order2 ho2 _ _ _ hd hc,
        S.updateQTHost_idem]
    obtain ⟨s1, h1, h2⟩ :=
      updateQT_device_again (S.routines order G T) (S.routines order2 G T) rfl s isSubStep hker
    refine ⟨s1, h1, ?_, h2⟩
    obtain ⟨s3, h3, hq, he, hQ, hE⟩ := h2 s1 rfl rfl (by cases h1; rfl)
    have hB : s3.B = s1.B ∧ s3.domInfo = s1.domInfo := by
      cases h3
      exact ⟨rfl, rfl⟩
    rw [TCFSISolver.ext_fields s3 s1 hq hQ he hE hB.1 hB.2] at h3
    exact h3

/-- Witness of C5: the 4 x 4 grid with 4 markers on the centred unit square;
after generateQT, two updates with the markers unmoved leave the same state,
in particular the same values of E. -/
theorem updateQT_idempotent_witness :
    ∃ s0 s1, generateQT memoryType.host_memory demoRoutines demoSolver = Except.ok s0 ∧
      updateQT memoryType.host_memory demoRoutines s0 false = Except.ok s1 ∧
      updateQT memoryType.host_memory demoRoutines s1 false = Except.ok s1 := by
  obtain ⟨s0, h0, _⟩ := generateQT_ok memoryType.host_memory demoRoutines demoSolver
  obtain ⟨s1, h1, h2, _⟩ :=
    (updateQT_idempotent demoStencil demoOrder (fun _ _ b => b) cooTranspose s0 false).1
  exact ⟨s0, s1, h0, h1, h2⟩

/-- C6: the host and device backends agree.  With the device grid arrays equal
to the host grid arrays: both updateQT hand the same argument list to the
stencil kernel, for either flag; both generateQT, with any kernels, declare
the same shape of QT; and with both kernels applying one stencil to every
marker index below totalPoints, the markers owning disjoint slots and the
device threads taking effect in any order, host and device updateQT return
the same state (QT, E, Q, ET), and so do host and device generateQT on a
solver whose QT has not been allocated before.  Both generateQT run the same
grid-gradient kernel with the same nx, ny, the host on the resized QT, the
device on a fresh matrix of the same shape, before they call updateQT. -/
theorem host_device_equivalent {R : Type} [Zero R] (S : Stencil R)
    (order : Int → Int → List Nat) (G : Int → Int → Buffers R → Buffers R)
    (T : coo R → coo R) (s : TCFSISolver R)
    (hx : s.domInfo.xD = s.domInfo.x) (hy : s.domInfo.yD = s.domInfo.y)
    (hdx : s.domInfo.dxD = s.domInfo.dx) (ho : IsSchedule order)
    (hd : ∀ isSubStep, S.DisjointSlots (kernelArgs_host s isSubStep)) :
    (∀ isSubStep, kernelArgs_device s isSubStep = kernelArgs_host s isSubStep) ∧
    (∀ K : Routines R, ∃ sh sd,
      generateQT memoryType.host_memory K s = Except.ok sh ∧
      generateQT memoryType.device_memory K s = Except.ok sd ∧
      sh.QT.num_rows = sd.QT.num_rows ∧ sh.QT.num_cols = sd.QT.num_cols ∧
      sh.QT.num_entries = sd.QT.num_entries) ∧
    (∀ K : Routines R, ∃ (r c n : Int) (th td : TCFSISolver R),
      generateQT memoryType.host_memory K s = updateQT memoryType.host_memory K th false ∧
      generateQT memoryType.device_memory K s
        = updateQT memoryType.device_memory K td false ∧
      th.QT.buffers = K.generateQT s.domInfo.nx s.domInfo.ny (s.QT.resize r c n).buffers ∧
      td.QT.buffers = K.generateQT s.domInfo.nx s.domInfo.ny (coo.create r c n).buffers ∧
      th.QT.shape = (r, c, n) ∧ td.QT.shape = (r, c, n)) ∧
    (∀ isSubStep,
      updateQT memoryType.device_memory (S.routines order G T) s isSubStep
        = updateQT memoryType.host_memory (S.routines order G T) s isSubStep) ∧
    (s.QT.row_indices = [] → s.QT.column_indices = [] → s.QT.values = [] →
      generateQT memoryType.device_memory (S.routines order G T) s
        = generateQT memoryType.host_memory (S.routines order G T) s) := by
  have hargs : ∀ (t : TCFSISolver R), t.domInfo = s.domInfo → ∀ isSubStep,
      kernelArgs_device t isSubStep = kernelArgs_host t isSubStep := by
    intro t ht isSubStep
    simp only [kernelArgs_device, kernelArgs_host, ht, hx, hy, hdx]
  have hupd : ∀ (t : TCFSISolver R), t.domInfo = s.domInfo → t.B = s.B → ∀ isSubStep,
      updateQT_device (S.routines order G T) t isSubStep
        = updateQT_host (S.routines order G T) t isSubStep := by
    intro t ht hB isSubStep
    have hk : kernelArgs_host t isSubStep = kernelArgs_host s isSubStep := by
      simp only [kernelArgs_host, ht, hB]
    have hc : (kernelArgs_host t isSubStep).totalPoints.toNat
        ≤ (numBlocks t.B.totalPoints * BLOCKSIZE).toNat := numBlocks_cover t.B.totalPoints
    have hker : S.updateQT order (numBlocks t.B.totalPoints) BLOCKSIZE
        (kernelArgs_host t isSubStep) (t.QT.buffers, t.E.buffers)
        = S.updateQTHost (kernelArgs_host t isSubStep) (t.QT.buffers, t.E.buffers) :=
      S.updateQT_eq_host order ho _ _ _ (hk ▸ hd isSubStep) hc _
    simp only [updateQT_device, updateQT_host, Stencil.routines, hargs t ht, hker]
  refine ⟨hargs s rfl, ?_, fun K => ⟨_, _, _, _, _, rfl, rfl, rfl, rfl, rfl, rfl⟩,
    fun isSubStep => hupd s rfl rfl isSubStep, ?_⟩
  · intro K
    obtain ⟨sh, h1, hs1⟩ := generateQT_ok memoryType.host_memory K s
    obtain ⟨sd, h2, hs2⟩ := generateQT_ok memoryType.device_memory K s
    have h := hs1.trans hs2.symm
    simp only [coo.shape, Prod.mk.injEq] at h
    exact ⟨sh, sd, h1, h2, h.1, h.2.1, h.2.2⟩
  · intro hr hcI hv
    have hres : ∀ r c n : Int, s.QT.resize r c n = coo.create r c n := by
      intro r c n
      simp [coo.resize, coo.create, resizeArray, hr, hcI, hv]
    simp only [generateQT, generateQT_device, generateQT_host, hres]
    apply hupd
    · rfl
    · rfl

/-- Witness of C6: the scenario's solver, stencil and descending thread order:
host and device return the same state from updateQT and from generateQT. -/
theorem host_device_equivalent_witness :
    (∀ isSubStep,
      updateQT memoryType.device_memory demoRoutines demoSolver isSubStep
        = updateQT memoryType.host_memory demoRoutines demoSolver isSubStep) ∧
    generateQT memoryType.device_memory demoRoutines demoSolver
      = generateQT memoryType.host_memory demoRoutines demoSolver :=
  have h := host_device_equivalent demoStencil demoOrder (fun _ _ b => b) cooTranspose
    demoSolver rfl rfl rfl demoOrder_schedule (fun _ => demoStencil_disjoint _)
  ⟨h.2.2.2.1, h.2.2.2.2 rfl rfl rfl⟩

/-! ## Claims on failure modes -/

set_option maxRecDepth 20000 in
/-- Counterexample to C7: QT is generated for the scenario's 4 markers, then the
marker set has 3 markers; the host updateQT does not fail with
StructuralMismatch: it returns and the stencil kernel has rewritten the
column indices of QT and of E. -/
theorem updateQT_StructuralMismatch_counterexample :
    ∃ s1 s3, generateQT memoryType.host_memory demoRoutines demoSolver = Except.ok s1 ∧
      demoBodiesMoved.totalPoints ≠ demoSolver.B.totalPoints ∧
      updateQT memoryType.host_memory demoRoutines { s1 with B := demoBodiesMoved } false
        ≠ Except.error SolverError.StructuralMismatch ∧
      updateQT memoryType.host_memory demoRoutines { s1 with B := demoBodiesMoved } false
        = Except.ok s3 ∧
      s3.QT.column_indices ≠ s1.QT.column_indices ∧
      s3.E.column_indices ≠ s1.E.column_indices :=
  ⟨_, _, rfl, by decide, fun h => Except.noConfusion h, rfl, by decide, by decide⟩

/-- C7 (amended): updateQT has no StructuralMismatch path and makes no
marker-count check.  Also when B.totalPoints differs from the marker count
generateQT used to size QT, updateQT (either backend, either flag) calls the
stencil kernel with the current B.totalPoints on the existing entry arrays of
QT and E; the declared shape of QT stays the one sized for the old count (the
one the `int` arithmetic of generateQT gave for it, the exact
`numP + 2*nb` rows and `4*numP - 2*(nx+ny) + 24*nb` nonzeros wherever that
arithmetic does not overflow). -/
theorem updateQT_no_marker_count_check {R : Type} [Zero R] (mem : memoryType)
    (K : Routines R) (s0 s1 : TCFSISolver R) (B : bodies R) (isSubStep : Bool)
    (hgen : generateQT mem K s0 = Except.ok s1)
    (hne : B.totalPoints ≠ s0.B.totalPoints) :
    ∃ s3, updateQT mem K { s1 with B := B } isSubStep = Except.ok s3 ∧
      (s3.QT.buffers, s3.E.buffers)
        = (match mem with
          | .host_memory => K.updateQTHost (kernelArgs_host { s1 with B := B } isSubStep)
          | .device_memory => K.updateQT (numBlocks B.totalPoints) BLOCKSIZE
              (kernelArgs_device { s1 with B := B } isSubStep)) (s1.QT.buffers, s1.E.buffers) ∧
      (kernelArgs_host { s1 with B := B } isSubStep).totalPoints = B.totalPoints ∧
      (kernelArgs_device { s1 with B := B } isSubStep).totalPoints = B.totalPoints ∧
      (s3.QT.num_rows, s3.QT.num_cols, s3.QT.num_entries)
        = QTShape32 s0.domInfo.nx s0.domInfo.ny s0.B.totalPoints ∧
      (ShapeFits s0.domInfo.nx s0.domInfo.ny s0.B.totalPoints →
        s3.QT.num_rows
          = (s0.domInfo.nx - 1) * s0.domInfo.ny + s0.domInfo.ny + 2 * s0.B.totalPoints ∧
        s3.QT.num_rows
          ≠ (s0.domInfo.nx - 1) * s0.domInfo.ny + s0.domInfo.ny + 2 * B.totalPoints ∧
        s3.QT.num_entries
          = 4 * ((s0.domInfo.nx - 1) * s0.domInfo.ny + s0.domInfo.ny)
              - 2 * (s0.domInfo.nx + s0.domInfo.ny) + 24 * s0.B.totalPoints) := by
  obtain ⟨t, ht, hshape⟩ := generateQT_ok mem K s0
  rw [hgen] at ht
  cases ht
  simp only [coo.shape] at hshape
  obtain ⟨s3, h3, hq, _⟩ := updateQT_ok mem K { s1 with B := B } isSubStep
  simp only [coo.shape, Prod.mk.injEq] at hq
  have hbuf : (s3.QT.buffers, s3.E.buffers)
      = (match mem with
        | .host_memory => K.updateQTHost (kernelArgs_host { s1 with B := B } isSubStep)
        | .device_memory => K.updateQT (numBlocks B.totalPoints) BLOCKSIZE
            (kernelArgs_device { s1 with B := B } isSubStep)) (s1.QT.buffers, s1.E.buffers) := by
    cases mem
    · cases h3; rfl
    · cases h3; rfl
  have hs3 : (s3.QT.num_rows, s3.QT.num_cols, s3.QT.num_entries)
      = QTShape32 s0.domInfo.nx s0.domInfo.ny s0.B.totalPoints := by
    rw [hq.1, hq.2.1, hq.2.2]
    exact hshape
  refine ⟨s3, h3, hbuf, rfl, rfl, hs3, ?_⟩
  intro hfit
  have h := hs3.trans (QTShape32_eq _ _ _ hfit)
  simp only [Prod.mk.injEq] at h
  refine ⟨h.1, ?_, h.2.2⟩
  rw [h.1]
  omega

/-- Witness of C7 (amended): the scenario, generated for 4 markers and updated
with 3. -/
theorem updateQT_no_marker_count_check_witness :
    ∃ s1 s3, generateQT memoryType.host_memory demoRoutines demoSolver = Except.ok s1 ∧
      demoBodiesMoved.totalPoints ≠ demoSolver.B.totalPoints ∧
      updateQT memoryType.host_memory demoRoutines { s1 with B := demoBodiesMoved } false
        = Except.ok s3 ∧
      s3.QT.num_rows = 24 ∧ s3.QT.num_entries = 144 := by
  obtain ⟨s1, h1, _⟩ := generateQT_ok memoryType.host_memory demoRoutines demoSolver
  have hne : demoBodiesMoved.totalPoints ≠ demoSolver.B.totalPoints := by decide
  obtain ⟨s3, h3, _, _, _, _, hex⟩ :=
    updateQT_no_marker_count_check memoryType.host_memory demoRoutines demoSolver s1
      demoBodiesMoved false h1 hne
  obtain ⟨hr, _, hn⟩ := hex demo_ShapeFits
  refine ⟨s1, s3, h1, hne, h3, ?_, ?_⟩
  · rw [hr]; decide
  · rw [hn]; decide

set_option maxRecDepth 20000 in
/-- Counterexample to C8: the scenario with the substep-k buffers allocated
and never written; the host updateQT called with isSubStep = true does not
fail with StaleStateError: it returns and the stencil kernel has rewritten the
row indices of E. -/
theorem updateQT_StaleStateError_counterexample :
    substepUnpopulated demoBodiesNoSubstep ∧
    ∃ s', updateQT memoryType.host_memory demoRoutines
          { demoSolver with B := demoBodiesNoSubstep } true
        ≠ Except.error SolverError.StaleStateError ∧
      updateQT memoryType.host_memory demoRoutines
          { demoSolver with B := demoBodiesNoSubstep } true = Except.ok s' ∧
      s'.E.row_indices ≠ demoSolver.E.row_indices :=
  ⟨⟨rfl, rfl⟩, _, fun h => Except.noConfusion h, rfl, by decide⟩

/-- C8 (amended): updateQT called with isSubStep = true has no StaleStateError
path and makes no check on the substep-k buffers: also when B.xk and B.yk are
unpopulated (allocated, still holding their initial zeros) it calls the
stencil kernel, on either backend, with them as the coordinate snapshot. -/
theorem updateQT_no_substep_check {R : Type} [Zero R] (mem : memoryType) (K : Routines R)
    (s : TCFSISolver R) (h : substepUnpopulated s.B) :
    ∃ s', updateQT mem K s true = Except.ok s' ∧
      (s'.QT.buffers, s'.E.buffers)
        = (match mem with
          | .host_memory => K.updateQTHost
              { nx := s.domInfo.nx, ny := s.domInfo.ny,
                x := s.domInfo.x, y := s.domInfo.y, dx := s.domInfo.dx,
                totalPoints := s.B.totalPoints,
                xB := List.replicate s.B.totalPoints.toNat 0,
                yB := List.replicate s.B.totalPoints.toNat 0,
                I := s.B.I, J := s.B.J }
          | .device_memory => K.updateQT (numBlocks s.B.totalPoints) BLOCKSIZE
              { nx := s.domInfo.nx, ny := s.domInfo.ny,
                x := s.domInfo.xD, y := s.domInfo.yD, dx := s.domInfo.dxD,
                totalPoints := s.B.totalPoints,
                xB := List.replicate s.B.totalPoints.toNat 0,
                yB := List.replicate s.B.totalPoints.toNat 0,
                I := s.B.I, J := s.B.J }) (s.QT.buffers, s.E.buffers) := by
  obtain ⟨hxk, hyk⟩ := h
  cases mem
  · have ha : kernelArgs_host s true
        = { nx := s.domInfo.nx, ny := s.domInfo.ny,
            x := s.domInfo.x, y := s.domInfo.y, dx := s.domInfo.dx,
            totalPoints := s.B.totalPoints,
            xB := List.replicate s.B.totalPoints.toNat 0,
            yB := List.replicate s.B.totalPoints.toNat 0,
            I := s.B.I, J := s.B.J } := by
      simp only [kernelArgs_host, Bool.not_true, Bool.false_eq_true, if_false]
      rw [hxk, hyk]
    refine ⟨_, rfl, ?_⟩
    rw [← ha]
    rfl
  · have ha : kernelArgs_device s true
        = { nx := s.domInfo.nx, ny := s.domInfo.ny,
            x := s.domInfo.xD, y := s.domInfo.yD, dx := s.domInfo.dxD,
            totalPoints := s.B.totalPoints,
            xB := List.replicate s.B.totalPoints.toNat 0,
            yB := List.replicate s.B.totalPoints.toNat 0,
            I := s.B.I, J := s.B.J } := by
      simp only [kernelArgs_device, Bool.not_true, Bool.false_eq_true, if_false]
      rw [hxk, hyk]
    refine ⟨_, rfl, ?_⟩
    rw [← ha]
    rfl

/-- Witness of C8 (amended): the scenario with the substep-k buffers allocated
and never written, host backend. -/
theorem updateQT_no_substep_check_witness :
    substepUnpopulated demoBodiesNoSubstep ∧
    ∃ s', updateQT memoryType.host_memory demoRoutines
        { demoSolver with B := demoBodiesNoSubstep } true = Except.ok s' ∧
      (s'.QT.buffers, s'.E.buffers)
        = demoRoutines.updateQTHost
            { nx := 4, ny := 4,
              x := [0, 1, 2, 3, 4], y := [0, 1, 2, 3, 4], dx := [1, 1, 1, 1],
              totalPoints := 4, xB := [0, 0, 0, 0], yB := [0, 0, 0, 0],
              I := [1, 2, 2, 1], J := [1, 1, 2, 2] }
            (demoSolver.QT.buffers, demoSolver.E.buffers) :=
  ⟨⟨rfl, rfl⟩, updateQT_no_substep_check memoryType.host_memory demoRoutines
    { demoSolver with B := demoBodiesNoSubstep } ⟨rfl, rfl⟩⟩

end CuIBM
